import Mathlib

/-!
Verification of the reference-extraction and link-materialization pipeline of
the knowledge-base chat backend (src/lambda_function.py).

The Python module is shallowly embedded: dictionaries whose keys may be absent
become structures with Option fields, a bare dict indexing that can raise
KeyError becomes an Except-valued function, the boto3 presigned-URL call and
the Bedrock retrieve_and_generate call become oracle parameters (a Signer and
a RAGClient), and datetime.utcnow() becomes a numeric parameter. Scores are
modelled as rationals. Python string/list idioms (str.strip, truthiness,
urlparse, set membership) are modelled by executable Lean functions over
character lists so that every definition evaluates on concrete inputs.
-/

namespace KBChat

/-- Decidable equality for Except, used to evaluate extractor results on
concrete inputs. -/
instance {ε α : Type} [DecidableEq ε] [DecidableEq α] : DecidableEq (Except ε α) := fun x y =>
  match x, y with
  | Except.error a, Except.error b =>
    if h : a = b then Decidable.isTrue (by rw [h])
    else Decidable.isFalse (fun hc => h (by injection hc))
  | Except.error _, Except.ok _ => Decidable.isFalse (fun hc => Except.noConfusion hc)
  | Except.ok _, Except.error _ => Decidable.isFalse (fun hc => Except.noConfusion hc)
  | Except.ok a, Except.ok b =>
    if h : a = b then Decidable.isTrue (by rw [h])
    else Decidable.isFalse (fun hc => h (by injection hc))

/-- The s3Location object of a retrieved reference. Its uri key may be absent:
the source reads it with bare indexing (reference['location']['s3Location']['uri']),
which raises KeyError when the key is missing. -/
structure S3Location where
  uri : Option String
deriving DecidableEq

/-- The location object of a retrieved reference; the s3Location key may be
absent (the source guards it with 's3Location' in reference['location']). -/
structure Location where
  s3Location : Option S3Location
deriving DecidableEq

/-- The content object of a retrieved reference; the text key may be absent
(the source reads it with .get('text', '')). -/
structure Content where
  text : Option String
deriving DecidableEq

/-- One retrieved reference record from a Bedrock citation. Every field is
optional, mirroring reference.get('content', {}), reference.get('score', 0)
and the 'location' in reference guard in the source. -/
structure RetrievedReference where
  location : Option Location
  content : Option Content
  score : Option ℚ
deriving DecidableEq

/-- One citation record; the retrievedReferences key may be absent (the source
reads it with citation.get('retrievedReferences', [])). -/
structure Citation where
  retrievedReferences : Option (List RetrievedReference)
deriving DecidableEq

/-- The dict {'uri': ..., 'snippet': ..., 'score': ...} built by
extract_references for each first-seen source. -/
structure Reference where
  uri : String
  snippet : String
  score : ℚ
deriving DecidableEq

/-- Models Python str.strip() with no argument: remove leading and trailing
whitespace. Implemented over the character list so it evaluates by decide. -/
def pyStrip (s : String) : String :=
  ((s.toList.dropWhile Char.isWhitespace).reverse.dropWhile Char.isWhitespace).reverse.asString

/-- Models reference.get('content', {}).get('text', '') from the source. -/
def pyGetText (r : RetrievedReference) : String :=
  match r.content with
  | none => ""
  | some c => c.text.getD ""

/-- The entry appended by extract_references for a first-seen uri u:
snippet is the trimmed content text (empty when missing), score defaults
to 0 when missing. -/
def mkEntry (u : String) (r : RetrievedReference) : Reference :=
  { uri := u, snippet := pyStrip (pyGetText r), score := r.score.getD 0 }

/-- The flattened traversal order of the two nested loops in
extract_references: all retrieved references of all citations, citations in
received order, references in order within each citation. -/
def allRetrieved (citations : List Citation) : List RetrievedReference :=
  citations.foldr (fun c acc => c.retrievedReferences.getD [] ++ acc) []

/-- Models the guard 'location' in reference and 's3Location' in
reference['location'] followed by reference['location']['s3Location']. -/
def s3Of (r : RetrievedReference) : Option S3Location :=
  match r.location with
  | none => none
  | some loc => loc.s3Location

/-- True when the reference cannot make the uri indexing raise: either it has
no s3 location (it is skipped), or its s3Location carries a uri key. -/
def uriPresentB (r : RetrievedReference) : Bool :=
  match s3Of r with
  | none => true
  | some s3 => s3.uri.isSome

/-- The collection loop of extract_references, threading the seen_uris set
(modelled as the list of its elements). A reference with an s3 location but
no uri key raises KeyError, modelled as Except.error. -/
def extractFrom (seen : List String) : List RetrievedReference → Except String (List Reference)
  | [] => Except.ok []
  | r :: rs =>
    match s3Of r with
    | none => extractFrom seen rs
    | some s3 =>
      match s3.uri with
      | none => Except.error "KeyError: uri"
      | some u =>
        if u ∈ seen then extractFrom seen rs
        else
          match extractFrom (u :: seen) rs with
          | Except.error e => Except.error e
          | Except.ok rest => Except.ok (mkEntry u r :: rest)

/-- The sort key ordering of references.sort(key=lambda x: x['score'],
reverse=True): x comes no later than y when y's score is at most x's. -/
def scoreGE (x y : Reference) : Prop := y.score ≤ x.score

instance : DecidableRel scoreGE := fun x y => inferInstanceAs (Decidable (y.score ≤ x.score))

instance : IsTotal Reference scoreGE := ⟨fun a b => le_total b.score a.score⟩

instance : IsTrans Reference scoreGE := ⟨fun _ _ _ hab hbc => le_trans hbc hab⟩

/-- extract_references from src/lambda_function.py: collect first-seen
references with an s3 location, then sort by descending score. Python's
list.sort is stable; sorting with reverse=True keeps equal keys in their
pre-sort order, which is exactly List.insertionSort with the scoreGE
relation. -/
def extract_references (citations : List Citation) : Except String (List Reference) :=
  match extractFrom [] (allRetrieved citations) with
  | Except.error e => Except.error e
  | Except.ok references => Except.ok (references.insertionSort scoreGE)

/-- The undeduplicated entry stream: one entry per retrieved reference with an
s3 location, in traversal order. Used to state first-seen-wins. -/
def rawEntries : List RetrievedReference → Except String (List Reference)
  | [] => Except.ok []
  | r :: rs =>
    match s3Of r with
    | none => rawEntries rs
    | some s3 =>
      match s3.uri with
      | none => Except.error "KeyError: uri"
      | some u =>
        match rawEntries rs with
        | Except.error e => Except.error e
        | Except.ok l => Except.ok (mkEntry u r :: l)

/-- First-seen-wins deduplication by uri, as the spec words it: keep an entry
exactly when its uri is neither in seen nor carried by an earlier kept
entry. -/
def dedupFrom (seen : List String) : List Reference → List Reference
  | [] => []
  | e :: es => if e.uri ∈ seen then dedupFrom seen es else e :: dedupFrom (e.uri :: seen) es

theorem extractFrom_eq_dedup (rs : List RetrievedReference) : ∀ seen : List String,
    extractFrom seen rs = match rawEntries rs with
      | Except.error e => Except.error e
      | Except.ok l => Except.ok (dedupFrom seen l) := by
  induction rs with
  | nil => intro seen; rfl
  | cons r rs ih =>
    intro seen
    cases hs3 : s3Of r with
    | none =>
      simp only [extractFrom, rawEntries, hs3]
      exact ih seen
    | some s3 =>
      cases hu : s3.uri with
      | none => simp only [extractFrom, rawEntries, hs3, hu]
      | some u =>
        simp only [extractFrom, rawEntries, hs3, hu]
        by_cases hmem : u ∈ seen
        · rw [if_pos hmem, ih seen]
          cases rawEntries rs with
          | error e => rfl
          | ok l => simp [dedupFrom, mkEntry, hmem]
        · rw [if_neg hmem, ih (u :: seen)]
          cases rawEntries rs with
          | error e => rfl
          | ok l => simp [dedupFrom, mkEntry, hmem]

theorem dedupFrom_nodup_aux (l : List Reference) : ∀ seen : List String,
    ((dedupFrom seen l).map (fun e => e.uri)).Nodup ∧
      ∀ e ∈ dedupFrom seen l, e.uri ∉ seen := by
  induction l with
  | nil => intro seen; simp [dedupFrom]
  | cons e es ih =>
    intro seen
    by_cases h : e.uri ∈ seen
    · simp only [dedupFrom, if_pos h]
      exact ⟨(ih seen).1, (ih seen).2⟩
    · simp only [dedupFrom, if_neg h]
      obtain ⟨h1, h2⟩ := ih (e.uri :: seen)
      constructor
      · simp only [List.map_cons, List.nodup_cons]
        refine ⟨?_, h1⟩
        intro hmem
        rcases List.mem_map.mp hmem with ⟨x, hx, hxe⟩
        exact (h2 x hx) (by rw [hxe]; exact List.mem_cons_self _ _)
      · intro x hx
        rcases List.mem_cons.mp hx with hxe | hx'
        · rw [hxe]; exact h
        · exact List.not_mem_of_not_mem_cons (h2 x hx')

theorem filter_orderedInsert_pos (s : ℚ) (x : Reference) (hx : x.score = s) :
    ∀ l : List Reference,
      (List.orderedInsert scoreGE x l).filter (fun e => decide (e.score = s))
        = x :: l.filter (fun e => decide (e.score = s)) := by
  intro l
  induction l with
  | nil => simp [hx]
  | cons b l ih =>
    by_cases hrb : scoreGE x b
    · simp [List.orderedInsert, hrb, hx]
    · have hbs : ¬ (b.score = s) := by
        intro hbs
        exact hrb (by show b.score ≤ x.score; rw [hbs, hx])
      simp [List.orderedInsert, hrb, ih, hbs]

theorem filter_orderedInsert_neg (s : ℚ) (x : Reference) (hx : ¬ x.score = s) :
    ∀ l : List Reference,
      (List.orderedInsert scoreGE x l).filter (fun e => decide (e.score = s))
        = l.filter (fun e => decide (e.score = s)) := by
  intro l
  induction l with
  | nil => simp [hx]
  | cons b l ih =>
    by_cases hrb : scoreGE x b
    · simp [List.orderedInsert, hrb, hx]
    · simp [List.orderedInsert, hrb, List.filter_cons, ih]

theorem filter_insertionSort_score (s : ℚ) : ∀ l : List Reference,
    (List.insertionSort scoreGE l).filter (fun e => decide (e.score = s))
      = l.filter (fun e => decide (e.score = s)) := by
  intro l
  induction l with
  | nil => rfl
  | cons a l ih =>
    simp only [List.insertionSort]
    by_cases ha : a.score = s
    · rw [filter_orderedInsert_pos s a ha, ih]
      simp [ha]
    · rw [filter_orderedInsert_neg s a ha, ih]
      simp [ha]

theorem extractFrom_ok_of_uris (rs : List RetrievedReference) : ∀ seen : List String,
    (∀ r ∈ rs, uriPresentB r = true) →
    ∃ l, extractFrom seen rs = Except.ok l ∧
      ∀ e ∈ l, ∃ r ∈ rs, s3Of r = some ⟨some e.uri⟩ ∧ e = mkEntry e.uri r := by
  induction rs with
  | nil =>
    intro seen _
    exact ⟨[], rfl, by intro e he; cases he⟩
  | cons r rs ih =>
    intro seen h
    have hr := h r (List.mem_cons_self r rs)
    have hrs : ∀ r' ∈ rs, uriPresentB r' = true := fun r' hr' => h r' (List.mem_cons_of_mem _ hr')
    cases hs3 : s3Of r with
    | none =>
      obtain ⟨l, hl, hprov⟩ := ih seen hrs
      refine ⟨l, ?_, ?_⟩
      · simp only [extractFrom, hs3]; exact hl
      · intro e he
        obtain ⟨r', hr', hp⟩ := hprov e he
        exact ⟨r', List.mem_cons_of_mem _ hr', hp⟩
    | some s3 =>
      cases hu : s3.uri with
      | none =>
        exfalso
        simp [uriPresentB, hs3, hu] at hr
      | some u =>
        by_cases hmem : u ∈ seen
        · obtain ⟨l, hl, hprov⟩ := ih seen hrs
          refine ⟨l, ?_, ?_⟩
          · simp only [extractFrom, hs3, hu, if_pos hmem]; exact hl
          · intro e he
            obtain ⟨r', hr', hp⟩ := hprov e he
            exact ⟨r', List.mem_cons_of_mem _ hr', hp⟩
        · obtain ⟨l, hl, hprov⟩ := ih (u :: seen) hrs
          refine ⟨mkEntry u r :: l, ?_, ?_⟩
          · simp only [extractFrom, hs3, hu, if_neg hmem, hl]
          · intro e he
            rcases List.mem_cons.mp he with hxe | he'
            · refine ⟨r, List.mem_cons_self _ _, ?_, ?_⟩
              · rw [hxe]
                have hseq : s3 = ⟨some u⟩ := by cases s3; simp only at hu; rw [hu]
                show s3Of r = some ⟨some u⟩
                exact hseq ▸ hs3
              · rw [hxe]; rfl
            · obtain ⟨r', hr', hp⟩ := hprov e he'
              exact ⟨r', List.mem_cons_of_mem _ hr', hp⟩

/-- The boto3 URL-signing oracle: from (bucket, key, expiresIn seconds) to a
signed URL; none models the exception path inside generate_presigned_url
(which catches the exception and returns None). -/
def Signer : Type := String → String → Nat → Option String

/-- The default value of the expiration parameter of generate_presigned_url
in src/lambda_function.py (1800 seconds). -/
def defaultExpiration : Nat := 1800

/-- generate_presigned_url from src/lambda_function.py: delegates to the
signing oracle with the requested expiration; the try/except that converts a
signing exception into None lives inside the oracle's Option result. -/
def generate_presigned_url (sign : Signer) (bucket key : String) (expiration : Nat) :
    Option String :=
  sign bucket key expiration

/-- The characters after the first occurrence of the marker "://", none when
the marker is absent. -/
def afterSchemeMarker : List Char → Option (List Char)
  | [] => none
  | ':' :: '/' :: '/' :: rest => some rest
  | _ :: cs => afterSchemeMarker cs

/-- Models urllib.parse.urlparse restricted to what process_s3_urls reads:
netloc (the segment between "://" and the following '/') and path (the
remainder, including its leading '/'). S3 URIs s3://bucket/key carry neither
query nor fragment, so those delimiters are not modelled; a string without
"://" has an empty netloc, as urlparse gives for scheme-less input. -/
def urlparseNetlocPath (url : String) : String × String :=
  match afterSchemeMarker url.toList with
  | none => ("", url)
  | some rest =>
    ((rest.takeWhile (fun c => c != '/')).asString, (rest.dropWhile (fun c => c != '/')).asString)

/-- bucket = parsed_url.netloc.split('.')[0]: the netloc up to the first
dot. -/
def bucketOf (url : String) : String :=
  ((urlparseNetlocPath url).1.toList.takeWhile (fun c => c != '.')).asString

/-- key = parsed_url.path.lstrip('/'): the path with every leading slash
removed. -/
def keyOf (url : String) : String :=
  ((urlparseNetlocPath url).2.toList.dropWhile (fun c => c == '/')).asString

/-- The enriched reference dict: the extracted reference with the
presigned_url key added by process_s3_urls. -/
structure EnrichedReference where
  uri : String
  snippet : String
  score : ℚ
  presigned_url : String
deriving DecidableEq

/-- The underlying extracted reference of an enriched one (the dict before
the presigned_url key was added). -/
def eraseUrl (e : EnrichedReference) : Reference :=
  { uri := e.uri, snippet := e.snippet, score := e.score }

/-- process_s3_urls from src/lambda_function.py. The source binds
bucket/key from urlparse of ref['uri'] (the 'uri' in ref guard is always
satisfied for extractor output, whose entries all carry uri), calls
generate_presigned_url without an expiration argument (so Python applies the
default 1800), and keeps the reference only when the result is truthy (not
None and not the empty string). -/
def process_s3_urls (sign : Signer) : List Reference → List EnrichedReference
  | [] => []
  | ref :: rest =>
    match generate_presigned_url sign (bucketOf ref.uri) (keyOf ref.uri) defaultExpiration with
    | none => process_s3_urls sign rest
    | some url =>
      if url == "" then process_s3_urls sign rest
      else { uri := ref.uri, snippet := ref.snippet, score := ref.score, presigned_url := url }
        :: process_s3_urls sign rest

theorem process_cons_none (sign : Signer) (r : Reference) (rest : List Reference)
    (hg : generate_presigned_url sign (bucketOf r.uri) (keyOf r.uri) defaultExpiration = none) :
    process_s3_urls sign (r :: rest) = process_s3_urls sign rest := by
  simp [process_s3_urls, hg]

theorem process_cons_empty (sign : Signer) (r : Reference) (rest : List Reference) (url : String)
    (hg : generate_presigned_url sign (bucketOf r.uri) (keyOf r.uri) defaultExpiration = some url)
    (hurl : url = "") :
    process_s3_urls sign (r :: rest) = process_s3_urls sign rest := by
  simp [process_s3_urls, hg, hurl]

theorem process_cons_keep (sign : Signer) (r : Reference) (rest : List Reference) (url : String)
    (hg : generate_presigned_url sign (bucketOf r.uri) (keyOf r.uri) defaultExpiration = some url)
    (hurl : url ≠ "") :
    process_s3_urls sign (r :: rest)
      = { uri := r.uri, snippet := r.snippet, score := r.score, presigned_url := url }
          :: process_s3_urls sign rest := by
  simp [process_s3_urls, hg, hurl]

theorem process_mem_spec (sign : Signer) : ∀ (refs : List Reference) (e : EnrichedReference),
    e ∈ process_s3_urls sign refs →
      eraseUrl e ∈ refs ∧
      generate_presigned_url sign (bucketOf e.uri) (keyOf e.uri) defaultExpiration
        = some e.presigned_url ∧
      e.presigned_url ≠ "" := by
  intro refs
  induction refs with
  | nil => intro e he; cases he
  | cons r rest ih =>
    intro e he
    cases hg : generate_presigned_url sign (bucketOf r.uri) (keyOf r.uri) defaultExpiration with
    | none =>
      rw [process_cons_none sign r rest hg] at he
      obtain ⟨h1, h2, h3⟩ := ih e he
      exact ⟨List.mem_cons_of_mem _ h1, h2, h3⟩
    | some url =>
      by_cases hurl : url = ""
      · rw [process_cons_empty sign r rest url hg hurl] at he
        obtain ⟨h1, h2, h3⟩ := ih e he
        exact ⟨List.mem_cons_of_mem _ h1, h2, h3⟩
      · rw [process_cons_keep sign r rest url hg hurl] at he
        rcases List.mem_cons.mp he with hxe | he'
        · subst hxe
          exact ⟨List.mem_cons_self _ _, hg, hurl⟩
        · obtain ⟨h1, h2, h3⟩ := ih e he'
          exact ⟨List.mem_cons_of_mem _ h1, h2, h3⟩

theorem process_sublist (sign : Signer) : ∀ refs : List Reference,
    ((process_s3_urls sign refs).map eraseUrl).Sublist refs := by
  intro refs
  induction refs with
  | nil => simp [process_s3_urls]
  | cons r rest ih =>
    cases hg : generate_presigned_url sign (bucketOf r.uri) (keyOf r.uri) defaultExpiration with
    | none =>
      rw [process_cons_none sign r rest hg]
      exact ih.cons r
    | some url =>
      by_cases hurl : url = ""
      · rw [process_cons_empty sign r rest url hg hurl]
        exact ih.cons r
      · rw [process_cons_keep sign r rest url hg hurl, List.map_cons]
        exact ih.cons₂ r

theorem process_nil_of_allFail (sign : Signer) : ∀ refs : List Reference,
    (∀ r ∈ refs,
        generate_presigned_url sign (bucketOf r.uri) (keyOf r.uri) defaultExpiration = none ∨
        generate_presigned_url sign (bucketOf r.uri) (keyOf r.uri) defaultExpiration = some "") →
      process_s3_urls sign refs = [] := by
  intro refs
  induction refs with
  | nil => intro _; rfl
  | cons r rest ih =>
    intro h
    have hrest := ih (fun r' hr' => h r' (List.mem_cons_of_mem _ hr'))
    rcases h r (List.mem_cons_self _ _) with hn | hs
    · rw [process_cons_none sign r rest hn]; exact hrest
    · rw [process_cons_empty sign r rest "" hs rfl]; exact hrest

/-- The JSON body sent to the handler: user_query and sessionId are read with
dict .get, other keys are irrelevant to the handler. -/
structure RequestBody where
  user_query : Option String
  sessionId : Option String
deriving DecidableEq

/-- The inbound event of lambda_handler. An API-Gateway event carries a body
field: a JSON string whose parse may fail, or parse to a non-dict (both ways
of raising inside get_request_data are the error case), or a dict. A direct
invocation is a dict without a body key. A non-dict event raises ValueError
("Invalid event format"). -/
inductive Event where
  | apiGateway (body : Except String RequestBody)
  | direct (body : RequestBody)
  | invalid
deriving DecidableEq

/-- get_request_data from src/lambda_function.py: extract (user_query,
sessionId) from the event, propagating any parsing exception. -/
def get_request_data : Event → Except String (Option String × Option String)
  | Event.apiGateway (Except.error e) => Except.error e
  | Event.apiGateway (Except.ok b) => Except.ok (b.user_query, b.sessionId)
  | Event.direct b => Except.ok (b.user_query, b.sessionId)
  | Event.invalid => Except.error "Invalid event format"

/-- Python truthiness of an optional string: None and the empty string are
falsy. -/
def pyTruthyStr (s : Option String) : Bool :=
  match s with
  | none => false
  | some v => v != ""

/-- The retrieve_and_generate request, reduced to the fields that vary: the
query text, the two environment-derived identifiers, and the optional
sessionId (added only when session_id is truthy). The fixed retrieval and
generation configuration of the source (numberOfResults 3, HYBRID search,
temperature 0, prompt template, query decomposition) is constant and carries
no information for the claims. -/
structure RAGRequest where
  text : String
  knowledgeBaseId : String
  modelArn : String
  sessionId : Option String
deriving DecidableEq

/-- The request assembled by lambda_handler: sessionId is attached only when
the extracted session identifier is truthy (if session_id:). -/
def mkRetrieveRequest (kbId fmArn : String) (q : String) (sid : Option String) : RAGRequest :=
  { text := q, knowledgeBaseId := kbId, modelArn := fmArn
    sessionId := if pyTruthyStr sid then sid else none }

/-- The retrieve_and_generate response: citations and output text are indexed
with bare keys (required), sessionId with .get (optional). -/
structure KBResponse where
  citations : List Citation
  output : String
  sessionId : Option String
deriving DecidableEq

/-- The Bedrock client oracle: error models an exception thrown by
client.retrieve_and_generate, caught by the handler's outer try/except. -/
def RAGClient : Type := RAGRequest → Except String KBResponse

/-- The JSON bodies produced by lambda_handler: the 400 error body, the 200
success envelope, and the 500 failure body. -/
inductive ResponseBody where
  | errorBody (error : String)
  | success (generated_response : String) (detailed_references : List EnrichedReference)
      (urlExpirationTime : ℚ) (sessionId : Option String) (sourceCount : Nat)
  | failure (error : String) (generated_response : String)
      (detailed_references : List EnrichedReference) (sessionId : Option String)
deriving DecidableEq

/-- An API-Gateway response: status code, headers, JSON body. -/
structure LambdaResponse where
  statusCode : Nat
  headers : List (String × String)
  body : ResponseBody
deriving DecidableEq

/-- The fixed header set of create_response: the three permissive CORS
headers plus the content type. -/
def corsHeaders : List (String × String) :=
  [("Access-Control-Allow-Headers",
      "Content-Type,X-Amz-Date,Authorization,X-Api-Key,X-Amz-Security-Token"),
   ("Access-Control-Allow-Origin", "*"),
   ("Access-Control-Allow-Methods", "OPTIONS,POST"),
   ("Content-Type", "application/json")]

/-- create_response from src/lambda_function.py. -/
def create_response (status_code : Nat) (body : ResponseBody) : LambdaResponse :=
  { statusCode := status_code, headers := corsHeaders, body := body }

/-- The fixed generated_response text of the 500 body. -/
def genericErrorText : String := "An error occurred while processing your request."

/-- lambda_handler from src/lambda_function.py. now is the value of
datetime.utcnow() in seconds; the envelope's urlExpirationTime is now plus
one hour. The outer try/except catches the two fallible operations after
validation - the Bedrock call and extract_references (which raises KeyError
on an s3Location without uri) - and when it fires, session_id is always
bound, since a get_request_data exception was already converted to a 400 by
the inner try/except. -/
def lambda_handler (kbId fmArn : String) (rng : RAGClient) (sign : Signer) (now : ℚ)
    (event : Event) : LambdaResponse :=
  match get_request_data event with
  | Except.error e => create_response 400 (ResponseBody.errorBody ("Error processing request: " ++ e))
  | Except.ok (user_query, session_id) =>
    match user_query with
    | none => create_response 400 (ResponseBody.errorBody "user_query is required")
    | some q =>
      if q == "" then create_response 400 (ResponseBody.errorBody "user_query is required")
      else
        match rng (mkRetrieveRequest kbId fmArn q session_id) with
        | Except.error e =>
          create_response 500 (ResponseBody.failure e genericErrorText [] session_id)
        | Except.ok kb =>
          match extract_references kb.citations with
          | Except.error e =>
            create_response 500 (ResponseBody.failure e genericErrorText [] session_id)
          | Except.ok references =>
            create_response 200 (ResponseBody.success kb.output (process_s3_urls sign references)
              (now + 3600) kb.sessionId (process_s3_urls sign references).length)

/-- C1: for every citation list on which extraction succeeds, the output has
no two entries with the same uri, and it consists (up to the score sort) of
exactly the first-seen entry per uri of the raw entry stream taken in
received order - so the surviving entry of a duplicated uri carries the
excerpt and score of its first occurrence. -/
theorem extract_references_unique_first_seen (citations : List Citation) (out : List Reference)
    (h : extract_references citations = Except.ok out) :
    (out.map (fun e => e.uri)).Nodup ∧
      ∃ raw, rawEntries (allRetrieved citations) = Except.ok raw ∧
        out.Perm (dedupFrom [] raw) := by
  unfold extract_references at h
  rw [extractFrom_eq_dedup] at h
  cases hraw : rawEntries (allRetrieved citations) with
  | error e => rw [hraw] at h; cases h
  | ok raw =>
    rw [hraw] at h
    injection h with ho
    have hperm : (dedupFrom [] raw).insertionSort scoreGE |>.Perm (dedupFrom [] raw) :=
      List.perm_insertionSort scoreGE (dedupFrom [] raw)
    constructor
    · have hnd := (dedupFrom_nodup_aux raw []).1
      rw [← ho]
      exact ((hperm.map (fun e => e.uri)).symm).nodup hnd
    · exact ⟨raw, rfl, by rw [← ho]; exact hperm⟩

/-- The rational 9/10, written via the constructor so that it evaluates under
kernel reduction. -/
def s910 : ℚ := ⟨9, 10, by norm_num, by norm_num⟩

/-- The rational 1/2, written via the constructor so that it evaluates under
kernel reduction. -/
def s12 : ℚ := ⟨1, 2, by norm_num, by norm_num⟩

/-- A retrieved reference for s3://b/k1 with score 9/10. -/
def rrK1a : RetrievedReference := ⟨some ⟨some ⟨some "s3://b/k1"⟩⟩, none, some s910⟩

/-- A retrieved reference for the same uri s3://b/k1 with score 1/2. -/
def rrK1b : RetrievedReference := ⟨some ⟨some ⟨some "s3://b/k1"⟩⟩, none, some s12⟩

/-- The spec's worked example: one citation holding two references to the
same uri, scores 9/10 then 1/2. -/
def exampleCitations : List Citation := [⟨some [rrK1a, rrK1b]⟩]

/-- The extractor's output on exampleCitations: exactly one entry for k1,
carrying the first-seen score 9/10. -/
def exampleOut : List Reference := [⟨"s3://b/k1", "", s910⟩]

/-- Witness for C1 at the spec's worked example; discharging the hypothesis
evaluates the extractor there, confirming the single surviving k1 entry with
score 9/10. -/
theorem extract_references_unique_first_seen_witness :
    (exampleOut.map (fun e => e.uri)).Nodup ∧
      ∃ raw, rawEntries (allRetrieved exampleCitations) = Except.ok raw ∧
        exampleOut.Perm (dedupFrom [] raw) :=
  extract_references_unique_first_seen exampleCitations exampleOut (by decide)

/-- C2: whenever extraction succeeds, its output is sorted by descending
score, and entries of any fixed score appear exactly as in the pre-sort
collection list - which is the first-seen-order deduplication of the raw
entry stream - so equal scores keep first-seen order (the sort is stable). -/
theorem extract_references_sorted_stable (citations : List Citation) (pre out : List Reference)
    (hpre : extractFrom [] (allRetrieved citations) = Except.ok pre)
    (hout : extract_references citations = Except.ok out) :
    List.Sorted scoreGE out ∧
      (∀ s : ℚ, out.filter (fun e => decide (e.score = s))
          = pre.filter (fun e => decide (e.score = s))) ∧
      ∃ raw, rawEntries (allRetrieved citations) = Except.ok raw ∧ pre = dedupFrom [] raw := by
  unfold extract_references at hout
  rw [hpre] at hout
  injection hout with ho
  refine ⟨?_, ?_, ?_⟩
  · rw [← ho]; exact List.sorted_insertionSort scoreGE pre
  · intro s; rw [← ho]; exact filter_insertionSort_score s pre
  · have hd := extractFrom_eq_dedup (allRetrieved citations) []
    rw [hpre] at hd
    cases hraw : rawEntries (allRetrieved citations) with
    | error e => rw [hraw] at hd; cases hd
    | ok raw =>
      rw [hraw] at hd
      injection hd with hd'
      exact ⟨raw, rfl, hd'⟩

/-- A retrieved reference for s3://b/a with score 1/2. -/
def rrTieA : RetrievedReference := ⟨some ⟨some ⟨some "s3://b/a"⟩⟩, none, some s12⟩

/-- A retrieved reference for s3://b/b with the same score 1/2. -/
def rrTieB : RetrievedReference := ⟨some ⟨some ⟨some "s3://b/b"⟩⟩, none, some s12⟩

/-- A retrieved reference for s3://b/c with the higher score 9/10. -/
def rrTieC : RetrievedReference := ⟨some ⟨some ⟨some "s3://b/c"⟩⟩, none, some s910⟩

/-- Citations with a score tie between a and b, and a higher-scored c. -/
def tieCitations : List Citation := [⟨some [rrTieA, rrTieB]⟩, ⟨some [rrTieC]⟩]

/-- The pre-sort collection list for tieCitations (first-seen order). -/
def tiePre : List Reference :=
  [⟨"s3://b/a", "", s12⟩, ⟨"s3://b/b", "", s12⟩, ⟨"s3://b/c", "", s910⟩]

/-- The sorted extractor output for tieCitations: c first, then the tied a
and b in first-seen order. -/
def tieOut : List Reference :=
  [⟨"s3://b/c", "", s910⟩, ⟨"s3://b/a", "", s12⟩, ⟨"s3://b/b", "", s12⟩]

/-- Witness for C2 on a citation list with a genuine score tie. -/
theorem extract_references_sorted_stable_witness :
    List.Sorted scoreGE tieOut ∧
      (∀ s : ℚ, tieOut.filter (fun e => decide (e.score = s))
          = tiePre.filter (fun e => decide (e.score = s))) ∧
      ∃ raw, rawEntries (allRetrieved tieCitations) = Except.ok raw ∧ tiePre = dedupFrom [] raw :=
  extract_references_sorted_stable tieCitations tiePre tieOut (by decide) (by decide)

/-- C7 (amended): provided every present s3Location carries its uri key, the
extractor never raises; every output entry stems from a retrieved reference
with a storage location (so location-less references are excluded), its
excerpt is the trimmed content text - empty when the content or its text is
missing - and its score defaults to 0 when missing. As stated the claim is
false: a present s3Location without a uri key raises KeyError (see the
counterexample). -/
theorem extract_references_total_degrade (citations : List Citation)
    (h : ∀ r ∈ allRetrieved citations, uriPresentB r = true) :
    ∃ out, extract_references citations = Except.ok out ∧
      ∀ e ∈ out, ∃ r ∈ allRetrieved citations,
        s3Of r = some ⟨some e.uri⟩ ∧
        e.snippet = pyStrip (pyGetText r) ∧ e.score = r.score.getD 0 ∧
        (r.content = none → e.snippet = "") ∧ (r.score = none → e.score = 0) := by
  obtain ⟨l, hl, hprov⟩ := extractFrom_ok_of_uris (allRetrieved citations) [] h
  refine ⟨l.insertionSort scoreGE, ?_, ?_⟩
  · unfold extract_references; rw [hl]
  · intro e he
    have he' : e ∈ l := (List.perm_insertionSort scoreGE l).mem_iff.mp he
    obtain ⟨r, hrmem, hs3, hmk⟩ := hprov e he'
    refine ⟨r, hrmem, hs3, ?_, ?_, ?_, ?_⟩
    · exact congrArg Reference.snippet hmk
    · exact congrArg Reference.score hmk
    · intro hc
      rw [congrArg Reference.snippet hmk]
      show pyStrip (pyGetText r) = ""
      simp only [pyGetText, hc]
      decide
    · intro hsc
      rw [congrArg Reference.score hmk]
      show r.score.getD 0 = 0
      rw [hsc]
      rfl

/-- A retrieved reference with no location at all: the extractor must skip
it. -/
def wRefNoLoc : RetrievedReference := ⟨none, some ⟨some "orphan text"⟩, some s12⟩

/-- A retrieved reference with a uri but neither content nor score: the
extractor must degrade these to an empty excerpt and score 0. -/
def wRefBare : RetrievedReference := ⟨some ⟨some ⟨some "s3://bkt/doc.txt"⟩⟩, none, none⟩

/-- Degenerate citations: a location-less reference, a content/score-less
reference, and a citation without the retrievedReferences key. -/
def degradeCitations : List Citation := [⟨some [wRefNoLoc, wRefBare]⟩, ⟨none⟩]

/-- Witness for the amended C7 on degenerate records. -/
theorem extract_references_total_degrade_witness :
    ∃ out, extract_references degradeCitations = Except.ok out ∧
      ∀ e ∈ out, ∃ r ∈ allRetrieved degradeCitations,
        s3Of r = some ⟨some e.uri⟩ ∧
        e.snippet = pyStrip (pyGetText r) ∧ e.score = r.score.getD 0 ∧
        (r.content = none → e.snippet = "") ∧ (r.score = none → e.score = 0) :=
  extract_references_total_degrade degradeCitations (by decide)

/-- A retrieved reference whose s3Location is present but lacks the uri key. -/
def noUriRef : RetrievedReference := ⟨some ⟨some ⟨none⟩⟩, some ⟨some "text"⟩, some s12⟩

/-- A citation list containing a reference whose s3Location lacks uri. -/
def noUriCitations : List Citation := [⟨some [noUriRef]⟩]

/-- C7 counterexample: the claim says the extractor never raises on records
with missing fields, but on a reference whose present s3Location lacks the
uri key, reference['location']['s3Location']['uri'] raises KeyError - the
extractor returns an error instead of degrading. -/
theorem extract_references_missing_uri_raises :
    extract_references noUriCitations = Except.error "KeyError: uri" := by decide

/-- C3: the enricher's output maps back to a sublist of its input (so it is
never longer and survivors keep the input order), every surviving entry
carries a non-empty presigned_url, and whenever signing fails for a
reference's uri (an exception, modelled as none, or an empty URL), no entry
for that uri survives - the reference is dropped, and there is no error
outcome at all since the function is total. -/
theorem process_s3_urls_drops_failures (sign : Signer) (refs : List Reference) :
    ((process_s3_urls sign refs).map eraseUrl).Sublist refs ∧
    (process_s3_urls sign refs).length ≤ refs.length ∧
    (∀ e ∈ process_s3_urls sign refs, e.presigned_url ≠ "") ∧
    (∀ r ∈ refs,
        (generate_presigned_url sign (bucketOf r.uri) (keyOf r.uri) defaultExpiration = none ∨
         generate_presigned_url sign (bucketOf r.uri) (keyOf r.uri) defaultExpiration = some "") →
        ∀ e ∈ process_s3_urls sign refs, e.uri ≠ r.uri) := by
  refine ⟨process_sublist sign refs, ?_, ?_, ?_⟩
  · have hlen := (process_sublist sign refs).length_le
    rwa [List.length_map] at hlen
  · intro e he
    exact (process_mem_spec sign refs e he).2.2
  · intro r _ hfail e he heq
    obtain ⟨_, hgen, hne⟩ := process_mem_spec sign refs e he
    rw [heq] at hgen
    rcases hfail with hn | hs
    · rw [hn] at hgen; cases hgen
    · rw [hs] at hgen
      injection hgen with h'
      exact hne h'.symm

/-- A signing oracle that always fails. -/
def noSigner : Signer := fun _ _ _ => none

/-- A concrete deduplicated reference used as enricher input. -/
def exRef : Reference := ⟨"s3://bucket/key.pdf", "", 1⟩

/-- Witness for C3 with an always-failing signer on a one-element input. -/
theorem process_s3_urls_drops_failures_witness :
    ((process_s3_urls noSigner [exRef]).map eraseUrl).Sublist [exRef] ∧
    (process_s3_urls noSigner [exRef]).length ≤ [exRef].length ∧
    (∀ e ∈ process_s3_urls noSigner [exRef], e.presigned_url ≠ "") ∧
    (∀ r ∈ [exRef],
        (generate_presigned_url noSigner (bucketOf r.uri) (keyOf r.uri) defaultExpiration = none ∨
         generate_presigned_url noSigner (bucketOf r.uri) (keyOf r.uri) defaultExpiration = some "") →
        ∀ e ∈ process_s3_urls noSigner [exRef], e.uri ≠ r.uri) :=
  process_s3_urls_drops_failures noSigner [exRef]

/-- C4 (amended): every signing call the enricher makes requests the
materializer's default expiration of 1800 seconds, not the 1 hour of the
envelope's urlExpirationTime - the enricher's result depends only on the
signer's behaviour at expiration 1800. The claim as stated (calls request
3600 seconds) is refuted by the counterexample. -/
theorem enricher_expiration_default (sign sign' : Signer) (refs : List Reference)
    (h : ∀ b k, sign b k defaultExpiration = sign' b k defaultExpiration) :
    process_s3_urls sign refs = process_s3_urls sign' refs := by
  induction refs with
  | nil => rfl
  | cons r rest ih =>
    simp only [process_s3_urls, generate_presigned_url]
    rw [h (bucketOf r.uri) (keyOf r.uri), ih]

/-- A signer that succeeds at every expiration. -/
def constSigner : Signer := fun _ _ _ => some "https://signed.example/u"

/-- A signer that succeeds exactly at the default expiration 1800. -/
def gatedSigner : Signer :=
  fun _ _ e => if e == defaultExpiration then some "https://signed.example/u" else none

/-- Witness for the amended C4: two signers agreeing at expiration 1800 give
the enricher identical outputs. -/
theorem enricher_expiration_default_witness :
    process_s3_urls constSigner [exRef] = process_s3_urls gatedSigner [exRef] :=
  enricher_expiration_default constSigner gatedSigner [exRef] (fun _ _ => rfl)

/-- A signer that succeeds exactly at expiration 3600 seconds. -/
def only3600Signer : Signer :=
  fun _ _ e => if e == 3600 then some "https://signed.example/doc" else none

/-- C4 counterexample: with a signer that succeeds exactly at expiration
3600, the enricher still drops the reference - its call passes the 1800
default, not the 1 hour (3600 s) the claim states - even though signing the
same bucket and key at 3600 succeeds. -/
theorem enricher_expiration_counterexample :
    process_s3_urls only3600Signer [exRef] = [] ∧
    only3600Signer (bucketOf exRef.uri) (keyOf exRef.uri) 3600
      = some "https://signed.example/doc" := by
  exact ⟨rfl, rfl⟩

/-- C9: every response of the handler, in all outcomes (400, 200 and 500),
carries the fixed permissive CORS header set of create_response. -/
theorem responses_carry_cors_headers (kbId fmArn : String) (rng : RAGClient) (sign : Signer)
    (now : ℚ) (event : Event) :
    (lambda_handler kbId fmArn rng sign now event).headers = corsHeaders := by
  unfold lambda_handler
  repeat' split
  all_goals rfl

/-- C6: when the inbound event is unparseable or its body lacks user_query,
the handler returns status 400 with an error body, and the generation-service
client is never consulted: the response is the same for every client. -/
theorem missing_query_bad_request (kbId fmArn : String) (rng : RAGClient) (sign : Signer)
    (now : ℚ) (event : Event)
    (h : (∃ m, get_request_data event = Except.error m) ∨
         (∃ sid, get_request_data event = Except.ok (none, sid))) :
    (lambda_handler kbId fmArn rng sign now event).statusCode = 400 ∧
    (∃ m, (lambda_handler kbId fmArn rng sign now event).body = ResponseBody.errorBody m) ∧
    (∀ rng' : RAGClient, lambda_handler kbId fmArn rng' sign now event
        = lambda_handler kbId fmArn rng sign now event) := by
  rcases h with ⟨m, hm⟩ | ⟨sid, hs⟩
  · refine ⟨?_, ⟨"Error processing request: " ++ m, ?_⟩, ?_⟩
    · simp [lambda_handler, hm, create_response]
    · simp [lambda_handler, hm, create_response]
    · intro rng'
      simp [lambda_handler, hm]
  · refine ⟨?_, ⟨"user_query is required", ?_⟩, ?_⟩
    · simp [lambda_handler, hs, create_response]
    · simp [lambda_handler, hs, create_response]
    · intro rng'
      simp [lambda_handler, hs]

/-- A generation-service client that is never supposed to be reached. -/
def unreachedClient : RAGClient := fun _ => Except.error "should not be called"

/-- Witness for C6 on a direct-invocation event without user_query. -/
theorem missing_query_bad_request_witness :
    (lambda_handler "kb" "arn" unreachedClient noSigner 0 (Event.direct ⟨none, none⟩)).statusCode
        = 400 ∧
    (∃ m, (lambda_handler "kb" "arn" unreachedClient noSigner 0 (Event.direct ⟨none, none⟩)).body
        = ResponseBody.errorBody m) ∧
    (∀ rng' : RAGClient, lambda_handler "kb" "arn" rng' noSigner 0 (Event.direct ⟨none, none⟩)
        = lambda_handler "kb" "arn" unreachedClient noSigner 0 (Event.direct ⟨none, none⟩)) :=
  missing_query_bad_request "kb" "arn" unreachedClient noSigner 0 (Event.direct ⟨none, none⟩)
    (Or.inr ⟨none, rfl⟩)

/-- C10: when the body carries user_query with the empty string (falsy but
present), the handler also returns 400 with an error body and never consults
the generation-service client - validation rejects empty queries, not only
absent ones. -/
theorem empty_query_bad_request (kbId fmArn : String) (rng : RAGClient) (sign : Signer)
    (now : ℚ) (event : Event) (sid : Option String)
    (h : get_request_data event = Except.ok (some "", sid)) :
    (lambda_handler kbId fmArn rng sign now event).statusCode = 400 ∧
    (∃ m, (lambda_handler kbId fmArn rng sign now event).body = ResponseBody.errorBody m) ∧
    (∀ rng' : RAGClient, lambda_handler kbId fmArn rng' sign now event
        = lambda_handler kbId fmArn rng sign now event) := by
  refine ⟨?_, ⟨"user_query is required", ?_⟩, ?_⟩
  · simp [lambda_handler, h, create_response]
  · simp [lambda_handler, h, create_response]
  · intro rng'
    simp [lambda_handler, h]

/-- Witness for C10 on an event whose body holds an empty user_query. -/
theorem empty_query_bad_request_witness :
    (lambda_handler "kb" "arn" unreachedClient noSigner 0
        (Event.direct ⟨some "", some "sess"⟩)).statusCode = 400 ∧
    (∃ m, (lambda_handler "kb" "arn" unreachedClient noSigner 0
        (Event.direct ⟨some "", some "sess"⟩)).body = ResponseBody.errorBody m) ∧
    (∀ rng' : RAGClient, lambda_handler "kb" "arn" rng' noSigner 0
        (Event.direct ⟨some "", some "sess"⟩)
        = lambda_handler "kb" "arn" unreachedClient noSigner 0
            (Event.direct ⟨some "", some "sess"⟩)) :=
  empty_query_bad_request "kb" "arn" unreachedClient noSigner 0
    (Event.direct ⟨some "", some "sess"⟩) (some "sess") rfl

/-- C5 (amended): when the generation-service call, or the extraction of its
citations, raises, the handler returns a 500 whose body carries the internal
exception detail in its error field together with the fixed generic
generated_response text, an empty detailed_references list, and the session
identifier extracted from the request (none when absent). The claim as
stated - only a generic message, detail not surfaced - is refuted by the
counterexample. -/
theorem upstream_failure_response (kbId fmArn : String) (rng : RAGClient) (sign : Signer)
    (now : ℚ) (event : Event) (q : String) (sid : Option String) (e : String)
    (hga : get_request_data event = Except.ok (some q, sid))
    (hq : (q == "") = false)
    (herr : rng (mkRetrieveRequest kbId fmArn q sid) = Except.error e ∨
            ∃ kb, rng (mkRetrieveRequest kbId fmArn q sid) = Except.ok kb ∧
                  extract_references kb.citations = Except.error e) :
    lambda_handler kbId fmArn rng sign now event
      = create_response 500 (ResponseBody.failure e genericErrorText [] sid) := by
  rcases herr with hrerr | ⟨kb, hok, hex⟩
  · simp [lambda_handler, hga, hq, hrerr]
  · simp [lambda_handler, hga, hq, hok, hex]

/-- A generation-service client that throws, with a distinctive internal
message. -/
def boomClient : RAGClient := fun _ => Except.error "boom: internal detail"

/-- An event with a non-empty query and a session identifier. -/
def evQS : Event := Event.direct ⟨some "q", some "sess"⟩

/-- Witness for the amended C5: the thrown detail lands in the 500 body,
alongside the generic text, an empty reference list and the known session
identifier. -/
theorem upstream_failure_response_witness :
    lambda_handler "kb" "arn" boomClient noSigner 0 evQS
      = create_response 500
          (ResponseBody.failure "boom: internal detail" genericErrorText [] (some "sess")) :=
  upstream_failure_response "kb" "arn" boomClient noSigner 0 evQS "q" (some "sess")
    "boom: internal detail" rfl rfl (Or.inl rfl)

/-- C5 counterexample: the claim says the 500 body contains only a generic
message and the internal exception detail is not surfaced, but the body's
error field carries the thrown message verbatim, and that message differs
from the generic text. -/
theorem upstream_error_detail_surfaced :
    (lambda_handler "kb" "arn" boomClient noSigner 0 evQS).body
      = ResponseBody.failure "boom: internal detail" genericErrorText [] (some "sess") ∧
    "boom: internal detail" ≠ genericErrorText := by
  refine ⟨rfl, ?_⟩
  decide

/-- C8: on a successful request the envelope carries the service's generated
text, the enriched reference list, and a sourceCount equal to that list's
length; and when signing fails for every extracted reference the enriched
list is empty (so sourceCount is 0) while the generated text is still
returned. -/
theorem success_envelope_source_count (kbId fmArn : String) (rng : RAGClient) (sign : Signer)
    (now : ℚ) (event : Event) (q : String) (sid : Option String) (kb : KBResponse)
    (references : List Reference)
    (hga : get_request_data event = Except.ok (some q, sid))
    (hq : (q == "") = false)
    (hok : rng (mkRetrieveRequest kbId fmArn q sid) = Except.ok kb)
    (hex : extract_references kb.citations = Except.ok references) :
    lambda_handler kbId fmArn rng sign now event
      = create_response 200 (ResponseBody.success kb.output (process_s3_urls sign references)
          (now + 3600) kb.sessionId (process_s3_urls sign references).length) ∧
    ((∀ r ∈ references,
        generate_presigned_url sign (bucketOf r.uri) (keyOf r.uri) defaultExpiration = none ∨
        generate_presigned_url sign (bucketOf r.uri) (keyOf r.uri) defaultExpiration = some "") →
      process_s3_urls sign references = []) := by
  constructor
  · simp [lambda_handler, hga, hq, hok, hex]
  · exact process_nil_of_allFail sign references

/-- A successful generation-service response built over the worked example's
citations. -/
def answerKB : KBResponse := ⟨exampleCitations, "the answer", some "sess-2"⟩

/-- A generation-service client that returns answerKB. -/
def answerClient : RAGClient := fun _ => Except.ok answerKB

/-- An event with a non-empty query and no session identifier. -/
def evQ : Event := Event.direct ⟨some "q", none⟩

/-- Witness for C8 with an always-failing signer: the envelope carries the
generated text with an empty reference list and sourceCount 0. -/
theorem success_envelope_source_count_witness :
    (lambda_handler "kb" "arn" answerClient noSigner 0 evQ
      = create_response 200 (ResponseBody.success answerKB.output
          (process_s3_urls noSigner exampleOut)
          ((0 : ℚ) + 3600) answerKB.sessionId (process_s3_urls noSigner exampleOut).length)) ∧
    ((∀ r ∈ exampleOut,
        generate_presigned_url noSigner (bucketOf r.uri) (keyOf r.uri) defaultExpiration = none ∨
        generate_presigned_url noSigner (bucketOf r.uri) (keyOf r.uri) defaultExpiration
          = some "") →
      process_s3_urls noSigner exampleOut = []) :=
  success_envelope_source_count "kb" "arn" answerClient noSigner 0 evQ "q" none answerKB
    exampleOut rfl rfl rfl (by decide)
